import Mathlib

/-!
Verification development for the xview layer (include/xtensor/xview.hpp):
slice-driven shape derivation, index mapping, stride and offset derivation,
and the traversal stepper. Definitions are translated from the source file;
collaborators that live outside the translated file (slice catalogue,
axis-count helpers, the underlying expression and its cursor) are modelled
from the specification and marked as such in their doc comments.
-/

namespace XView

/-- Modelled from the spec: the closed slice catalogue (Range, All,
Integral, NewAxis) is external to the translated file (section 4.1).
A range slice holds a start, an element count and a step; an all slice
holds the extent of the axis it spans; an integral slice holds the fixed
underlying coordinate; a new axis holds nothing. -/
inductive Slice where
  | sRange (start sz step : Nat)
  | sAll (sz : Nat)
  | sInt (c : Nat)
  | sNew
  deriving DecidableEq, Repr

/-- Modelled from the spec: size() of a slice, the element count it
contributes to the view axis (section 4.1). An integral slice contributes
no axis and is written 0 here, as in the spec; the translated code never
reads the size of an integral slice except as the ignored index argument
of its value function. A new axis has extent exactly 1. -/
def getSize : Slice → Nat
  | .sRange _ n _ => n
  | .sAll n => n
  | .sInt _ => 0
  | .sNew => 1

/-- Modelled from the spec: step_size() of a slice, the stride multiplier
within its underlying axis, 1 for All and Integral (section 4.1). For a
new axis we use 0; the translated code only reads it at positions where
the resulting stride is forced to 0 anyway. -/
def stepSize : Slice → Nat
  | .sRange _ _ st => st
  | .sAll _ => 1
  | .sInt _ => 1
  | .sNew => 0

/-- Modelled from the spec: value(i) of a slice, the underlying coordinate
for view position i along that axis, and the fixed constant for an
integral slice regardless of i (section 4.1). A new axis maps to no
underlying coordinate; we render that as 0. -/
def sliceValue : Slice → Nat → Nat
  | .sRange s _ st, i => s + i * st
  | .sAll _, i => i
  | .sInt c, _ => c
  | .sNew, _ => 0

/-- Whether a slice is an integral (axis-eliminating) slice. -/
def isIntegralSlice : Slice → Bool
  | .sInt _ => true
  | _ => false

/-- Whether a slice is a new-axis slot. -/
def isNewAxisKind : Slice → Bool
  | .sNew => true
  | _ => false

/-- Modelled from the spec: integral_count of the helper header that is
not under the translated sources, the number of integral slices in the
slice list (section 3 invariants). -/
def integral_count (sl : List Slice) : Nat :=
  (sl.filter isIntegralSlice).length

/-- Modelled from the spec: integral_count_before, the number of integral
slices among the first i slice positions (section 3 invariants). -/
def integral_count_before (sl : List Slice) (i : Nat) : Nat :=
  ((sl.take i).filter isIntegralSlice).length

/-- Modelled from the spec: newaxis_count, the number of new-axis slots in
the slice list (section 3 invariants). -/
def newaxis_count (sl : List Slice) : Nat :=
  (sl.filter isNewAxisKind).length

/-- Modelled from the spec: newaxis_count_before, the number of new-axis
slots among the first i slice positions (section 3 invariants). -/
def newaxis_count_before (sl : List Slice) (i : Nat) : Nat :=
  ((sl.take i).filter isNewAxisKind).length

/-- Modelled from the spec: integral_skip of the helper header, the
integral-skip walk of section 4.2 - advance through the slice list,
treating each integral slot as consumed without advancing the axis
counter, until the counter reaches i; the result is the slice position of
the i-th non-integral slot, and i plus the total integral count once the
walk moves past the end of the list. -/
def integral_skip : List Slice → Nat → Nat
  | [], i => i
  | s :: rest, i =>
    if isIntegralSlice s then 1 + integral_skip rest i
    else
      match i with
      | 0 => 0
      | Nat.succ j => 1 + integral_skip rest j

/-- Modelled from the spec: newaxis_skip of the helper header, the
new-axis analogue of the integral-skip walk (sections 4.2 and 4.3): the
slice position of the i-th non-new-axis slot, and i plus the total
new-axis count once the walk moves past the end of the list. -/
def newaxis_skip : List Slice → Nat → Nat
  | [], i => i
  | s :: rest, i =>
    if isNewAxisKind s then 1 + newaxis_skip rest i
    else
      match i with
      | 0 => 0
      | Nat.succ j => 1 + newaxis_skip rest j

/-- The layout classification enumeration consumed by the view (declared
outside the translated file): dynamic, no static ordering; any; row major;
column major. -/
inductive layout_type where
  | dynamic
  | any
  | row_major
  | column_major
  deriving DecidableEq, Repr

/-- Modelled from the spec: the underlying expression consumed by a view
(section 6): a shape, and - for the buffer capability - per-axis strides,
a base offset and the raw storage, rendered as a function from storage
positions to values. Its layout classification is carried for the layout
claim. -/
structure UExpr where
  shape : List Nat
  strides : List Nat
  offset : Nat
  data : Int → Int
  elayout : layout_type

/-- Modelled from the spec: element access of the underlying expression by
full coordinate tuple (section 6), with trailing coordinates defaulting to
0 when fewer are supplied (section 4.3): the value stored at the base
offset plus the dot product of coordinates and strides. -/
def uelem (e : UExpr) (coords : List Nat) : Int :=
  e.data ((e.offset : Int) +
    ((List.range e.shape.length).foldl
      (fun a i => a + coords.getD i 0 * e.strides.getD i 0) 0 : Nat))

/-- Rank of the view: underlying rank minus integral count plus new-axis
count (xview constructor, line 401). Natural subtraction stands in for the
unsigned arithmetic of the source; the two agree whenever the slice list
is valid, that is when the integral count does not exceed the rank. -/
def view_dimension (e : UExpr) (sl : List Slice) : Nat :=
  e.shape.length - integral_count sl + newaxis_count sl

/-- Derived shape of the view (xview constructor, lines 404-410): for each
view axis i, take the slice position by the integral-skip walk; within the
slice list the extent is the slice size, past it the extent is the
underlying extent at the position shifted down by the new-axis count
before it. -/
def view_shape (e : UExpr) (sl : List Slice) : List Nat :=
  (List.range (view_dimension e sl)).map fun i =>
    let index := integral_skip sl i
    if index < sl.length then getSize (sl.getD index (Slice.sInt 0))
    else e.shape.getD (index - newaxis_count_before sl index) 0

/-- Modelled from the spec: argument of the helper header - positional
access to the coordinate pack, the j-th supplied coordinate (trailing
coordinates default to 0, section 4.3). -/
def argument (args : List Nat) (j : Nat) : Nat :=
  args.getD j 0

/-- sliced_access (xview.hpp lines 811-831): an integral slice yields its
fixed constant whatever the supplied coordinates; any other slice maps the
j-th supplied coordinate through its value function, or position 0 when no
coordinate at all was supplied. -/
def sliced_access (s : Slice) (args : List Nat) (j : Nat) : Nat :=
  match s with
  | .sInt c => c
  | s => if args.isEmpty then sliceValue s 0 else sliceValue s (argument args j)

/-- The index member template (xview.hpp lines 796-809, with
lesser_condition from line 217): the underlying coordinate for underlying
axis I. Within reach of the slice list, the slice at position
I + newaxis_count_before(I + 1) is applied to supplied coordinate
I - integral_count_before(I) + newaxis_count_before(I + 1); past it, the
coordinate I - integral_count + newaxis_count is forwarded unchanged. -/
def cxx_index (sl : List Slice) (args : List Nat) (I : Nat) : Nat :=
  if I + newaxis_count_before sl (I + 1) < sl.length then
    sliced_access (sl.getD (I + newaxis_count_before sl (I + 1)) (Slice.sInt 0))
      args (I - integral_count_before sl I + newaxis_count_before sl (I + 1))
  else argument args (I - integral_count sl + newaxis_count sl)

/-- Unchecked element access of the view by coordinate pack (xview.hpp
lines 504-514 and 782-794): build the first
(number of arguments + integral count - newaxis count) underlying
coordinates through cxx_index and dispatch them to the underlying
expression. Natural subtraction renders the clamp to 0 of the source. -/
def view_access (e : UExpr) (sl : List Slice) (args : List Nat) : Int :=
  uelem e ((List.range (args.length + integral_count sl - newaxis_count sl)).map
    (cxx_index sl args))

/-- Modelled from the spec: get_slice_value of the helper header, reading
one coordinate from the coordinate cursor of the iterator pair access
(section 4.3): an integral slice yields its constant and consumes no
coordinate; any other slice in reach maps the coordinate under the cursor
through its value function and consumes it. Returns the produced
underlying coordinate together with the advanced cursor. -/
def get_slice_value (s : Slice) (cs : List Nat) (p : Nat) : Nat × Nat :=
  match s with
  | .sInt c => (c, p)
  | s => (sliceValue s (cs.getD p 0), p + 1)

/-- Loop body of make_index (xview.hpp lines 844-858), recursion over the
underlying axes with the remaining axis count as fuel, carrying the
coordinate cursor p. Each turn takes the slice position k of the current
underlying axis by the new-axis-skip walk, advances the cursor by k minus
the axis number (the advance of the source, rendered with natural
subtraction), and then either maps a coordinate through the slice at k
(consuming it unless the slice is integral), forwards the coordinate under
the cursor for a trailing axis, or - once the cursor sits at the end of
the coordinate list - falls back to slice value at 0, or 0 for a trailing
axis. -/
def make_index_go (sl : List Slice) (cs : List Nat) : Nat → Nat → Nat → List Nat
  | 0, _, _ => []
  | Nat.succ fuel, i, p =>
    let k := newaxis_skip sl i
    let p1 := p + (k - i)
    if p1 ≠ cs.length then
      if k < sl.length then
        let r := get_slice_value (sl.getD k (Slice.sInt 0)) cs p1
        r.1 :: make_index_go sl cs fuel (i + 1) r.2
      else cs.getD p1 0 :: make_index_go sl cs fuel (i + 1) (p1 + 1)
    else
      (if k < sl.length then sliceValue (sl.getD k (Slice.sInt 0)) 0 else 0) ::
        make_index_go sl cs fuel (i + 1) p1

/-- make_index (xview.hpp lines 833-860): the full underlying coordinate
tuple built from a view coordinate list for the iterator pair access. -/
def make_index (e : UExpr) (sl : List Slice) (cs : List Nat) : List Nat :=
  make_index_go sl cs e.shape.length 0 0

/-- Element access of the view through an iterator pair (xview.hpp lines
555-562 and 621-628): dispatch the tuple built by make_index to the
underlying expression. -/
def view_element (e : UExpr) (sl : List Slice) (cs : List Nat) : Int :=
  uelem e (make_index e sl cs)

/-- compute_strides (xview.hpp lines 759-780): for each view axis i, take
the slice position by the integral-skip walk; within the slice list the
stride is the slice step size times the underlying stride of the position
shifted down by the new-axis count before it, past the list it is that
underlying stride alone; finally any axis of derived extent 1 has its
stride forced to 0. -/
def view_strides (e : UExpr) (sl : List Slice) : List Nat :=
  (List.range (view_dimension e sl)).map fun i =>
    let index := integral_skip sl i
    let s :=
      if index < sl.length then
        stepSize (sl.getD index (Slice.sInt 0)) *
          e.strides.getD (index - newaxis_count_before sl index) 0
      else e.strides.getD (index - newaxis_count_before sl index) 0
    if (view_shape e sl).getD i 0 = 1 then 0 else s

/-- data_offset (xview.hpp lines 689-703): the underlying base offset plus,
for every slice position i, the slice value at 0 times the underlying
stride read at position i itself (the source indexes the underlying
strides by the slice position, with no new-axis adjustment). -/
def view_data_offset (e : UExpr) (sl : List Slice) : Nat :=
  e.offset +
    (List.range sl.length).foldl
      (fun acc i => acc + sliceValue (sl.getD i (Slice.sInt 0)) 0 * e.strides.getD i 0) 0

/-- The compile-time layout classification of a view (xview.hpp line 105). -/
def static_layout : layout_type := layout_type.dynamic

/-- The compile-time contiguity flag of a view (xview.hpp line 106). -/
def contiguous_layout : Bool := false

/-- Canonical row-major strides of a shape: the stride of an axis is the
product of the extents behind it. -/
def rm_strides : List Nat → List Nat
  | [] => []
  | _ :: rest => rest.prod :: rm_strides rest

/-- Canonical column-major strides of a shape: the stride of an axis is
the product of the extents before it. -/
def cm_strides : List Nat → List Nat
  | [] => []
  | n :: rest => 1 :: (cm_strides rest).map (fun s => n * s)

/-- Modelled from the spec: do_strides_match, declared outside the
translated sources and not described by the spec; modelled from its name
and call site as: whether the given strides are exactly the canonical
strides of the given layout for the given shape, and false for the
dynamic and any classifications. -/
def do_strides_match (shape strides : List Nat) (l : layout_type) : Bool :=
  match l with
  | layout_type.row_major => strides == rm_strides shape
  | layout_type.column_major => strides == cm_strides shape
  | _ => false

/-- The runtime layout of a view (xview.hpp lines 487-491): the layout of
the underlying expression when the view strides match it, dynamic
otherwise. -/
def view_layout (e : UExpr) (sl : List Slice) : layout_type :=
  if do_strides_match (view_shape e sl) (view_strides e sl) e.elayout then e.elayout
  else layout_type.dynamic

/-- Modelled from the spec: check_access, declared outside the translated
sources; per section 7 it signals a bounds violation when the number of
supplied coordinates exceeds the rank or some supplied coordinate reaches
or exceeds the extent of its axis. -/
def check_access_ok (shape args : List Nat) : Bool :=
  decide (args.length ≤ shape.length) &&
    (args.zip shape).all fun pr => decide (pr.1 < pr.2)

/-- Checked element access at (xview.hpp lines 525-531 and 591-597):
validate the coordinates against the derived shape, signalling a bounds
violation before any underlying access, then forward to the unchecked
access. -/
def view_at (e : UExpr) (sl : List Slice) (args : List Nat) : Except Unit Int :=
  if check_access_ok (view_shape e sl) args then Except.ok (view_access e sl args)
  else Except.error ()

/-- Modelled from the spec: one forward step of the cursor of the
underlying expression along an axis (sections 4.5 and 6) - the cursor is a
storage position and a step of n along axis dim moves it by n times the
underlying stride of dim. -/
def ustep (e : UExpr) (pos : Int) (dim n : Nat) : Int :=
  pos + (n : Int) * (e.strides.getD dim 0 : Int)

/-- Modelled from the spec: one backward step of the underlying cursor. -/
def ustep_back (e : UExpr) (pos : Int) (dim n : Nat) : Int :=
  pos - (n : Int) * (e.strides.getD dim 0 : Int)

/-- Modelled from the spec: the begin state of the underlying cursor, the
storage position of the first underlying element. -/
def ubegin (e : UExpr) : Int := (e.offset : Int)

/-- Dereference of a cursor: the stored value at its position (the view
stepper dereferences exactly what the underlying cursor points at,
xview.hpp lines 984-988). -/
def vderef (e : UExpr) (pos : Int) : Int := e.data pos

/-- is_newaxis_slice (xview.hpp lines 1045-1050): the count trick of the
source - slot index holds a new axis exactly when the new-axis count
before index + 1 differs from the one before index. -/
def is_newaxis_slice (sl : List Slice) (index : Nat) : Bool :=
  newaxis_count_before sl (index + 1) != newaxis_count_before sl index

/-- Begin-state anchoring of the view stepper (xview.hpp lines 960-977):
start from the begin state of the underlying cursor and, for every slice
position that is not a new axis, step forward along the mapped underlying
axis by the slice value at 0. -/
def vbegin (e : UExpr) (sl : List Slice) : Int :=
  (List.range sl.length).foldl
    (fun pos i =>
      if is_newaxis_slice sl i then pos
      else ustep e pos (i - newaxis_count_before sl i)
        (sliceValue (sl.getD i (Slice.sInt 0)) 0))
    (ubegin e)

/-- common_step with an explicit count (xview.hpp lines 1086-1102): below
the dimension offset nothing happens; otherwise translate dim by the
integral-skip walk, do nothing on a new-axis slot, and otherwise hand the
mapped underlying axis and the magnitude step size times n to the
delegate. -/
def common_stepN (sl : List Slice) (moff dim n : Nat) (f : Nat → Nat → Int)
    (pos : Int) : Int :=
  if moff ≤ dim then
    let index := integral_skip sl dim
    if is_newaxis_slice sl index then pos
    else
      let ss := if index < sl.length then stepSize (sl.getD index (Slice.sInt 0)) else 1
      f (index - newaxis_count_before sl index) (ss * n)
  else pos

/-- common_step without a count (xview.hpp lines 1068-1084): identical to
the counted form except that the magnitude handed over is the step size
itself. -/
def common_step1 (sl : List Slice) (moff dim : Nat) (f : Nat → Nat → Int)
    (pos : Int) : Int :=
  if moff ≤ dim then
    let index := integral_skip sl dim
    if is_newaxis_slice sl index then pos
    else
      let ss := if index < sl.length then stepSize (sl.getD index (Slice.sInt 0)) else 1
      f (index - newaxis_count_before sl index) ss
  else pos

/-- step(dim, n) of the view stepper (xview.hpp lines 1004-1009). -/
def vstepN (e : UExpr) (sl : List Slice) (moff : Nat) (pos : Int) (dim n : Nat) : Int :=
  common_stepN sl moff dim n (fun i o => ustep e pos i o) pos

/-- step_back(dim, n) of the view stepper (xview.hpp lines 1011-1016). -/
def vstep_backN (e : UExpr) (sl : List Slice) (moff : Nat) (pos : Int) (dim n : Nat) : Int :=
  common_stepN sl moff dim n (fun i o => ustep_back e pos i o) pos

/-- step(dim) of the view stepper (xview.hpp lines 990-995). -/
def vstep1 (e : UExpr) (sl : List Slice) (moff : Nat) (pos : Int) (dim : Nat) : Int :=
  common_step1 sl moff dim (fun i o => ustep e pos i o) pos

/-- step_back(dim) of the view stepper (xview.hpp lines 997-1002). -/
def vstep_back1 (e : UExpr) (sl : List Slice) (moff : Nat) (pos : Int) (dim : Nat) : Int :=
  common_step1 sl moff dim (fun i o => ustep_back e pos i o) pos

/-- common_reset (xview.hpp lines 1104-1122): translate dim by the
integral-skip walk (with no dimension-offset guard, matching the source),
do nothing on a new-axis slot; otherwise the axis extent is the slice size
within the slice list and the derived view extent at dim past it, it is
decremented only when nonzero, and the delegate receives the mapped
underlying axis and the magnitude step size times the decremented
extent. -/
def common_reset (e : UExpr) (sl : List Slice) (dim : Nat) (f : Nat → Nat → Int)
    (pos : Int) : Int :=
  let index := integral_skip sl dim
  if is_newaxis_slice sl index then pos
  else
    let size0 :=
      if index < sl.length then getSize (sl.getD index (Slice.sInt 0))
      else (view_shape e sl).getD dim 0
    let size := if size0 ≠ 0 then size0 - 1 else size0
    let ss := if index < sl.length then stepSize (sl.getD index (Slice.sInt 0)) else 1
    f (index - newaxis_count_before sl index) (ss * size)

/-- reset(dim) of the view stepper (xview.hpp lines 1018-1023): delegate a
backward step. -/
def vreset (e : UExpr) (sl : List Slice) (pos : Int) (dim : Nat) : Int :=
  common_reset e sl dim (fun i o => ustep_back e pos i o) pos

/-- reset_back(dim) of the view stepper (xview.hpp lines 1025-1030):
delegate a forward step. -/
def vreset_back (e : UExpr) (sl : List Slice) (pos : Int) (dim : Nat) : Int :=
  common_reset e sl dim (fun i o => ustep e pos i o) pos

/-! Concrete instances used by individual claims. -/

/-- Scenario A expression: a 4 by 5 row-major buffer whose storage holds
its own position. -/
def eC1a : UExpr := ⟨[4, 5], [5, 1], 0, fun z => z, layout_type.row_major⟩

/-- Scenario A slice list: Range(1,3), All. -/
def slC1a : List Slice := [Slice.sRange 1 2 1, Slice.sAll 5]

/-- Failing instance for the element-access part of claim C1: a 2 by 2
buffer. -/
def eC1b : UExpr := ⟨[2, 2], [2, 1], 0, fun z => z, layout_type.row_major⟩

/-- Failing slice list for claim C1: NewAxis, All, All. -/
def slC1b : List Slice := [Slice.sNew, Slice.sAll 2, Slice.sAll 2]

/-- Failing instance for claim C3: a length-2 buffer. -/
def eC3x : UExpr := ⟨[2], [1], 0, fun z => z, layout_type.row_major⟩

/-- Failing slice list for claim C3: NewAxis, NewAxis, All. -/
def slC3x : List Slice := [Slice.sNew, Slice.sNew, Slice.sAll 2]

/-- Failing instance for claim C7: a 4 by 5 row-major buffer. -/
def eC7x : UExpr := ⟨[4, 5], [5, 1], 0, fun z => z, layout_type.row_major⟩

/-- Failing slice list for claim C7: NewAxis, Range(1,3), All. -/
def slC7x : List Slice := [Slice.sNew, Slice.sRange 1 2 1, Slice.sAll 5]

/-- Counterexample instance for claim C8: a 4 by 5 row-major buffer. -/
def eC8x : UExpr := ⟨[4, 5], [5, 1], 0, fun z => z, layout_type.row_major⟩

/-- Counterexample slice list for claim C8: the full view All, All. -/
def slC8x : List Slice := [Slice.sAll 4, Slice.sAll 5]

/-- Witness instance for claim C2. -/
def eW2 : UExpr := ⟨[4, 5], [5, 1], 0, fun z => z, layout_type.row_major⟩

/-- Witness slice list for claim C2: Range(1,3), All. -/
def slW2 : List Slice := [Slice.sRange 1 2 1, Slice.sAll 5]

/-- Witness instance for claim C6. -/
def eW6 : UExpr := ⟨[4, 5], [5, 1], 0, fun z => z, layout_type.row_major⟩

/-- Witness slice list for claim C6: Range(1,3) with step 2, All. -/
def slW6 : List Slice := [Slice.sRange 1 2 2, Slice.sAll 5]

/-- Witness instance for claim C10: a length-6 buffer. -/
def eW10 : UExpr := ⟨[6], [1], 0, fun z => z, layout_type.row_major⟩

/-- Witness slice list for claim C10: an empty range of size 0. -/
def slW10 : List Slice := [Slice.sRange 1 0 1]

/-! Helper lemmas. -/

/-- Reading position i of the image of a range under a map. -/
lemma getD_map_range (n : Nat) (f : Nat → Nat) (i : Nat) (h : i < n) :
    (((List.range n).map f).getD i 0) = f i := by
  rw [List.getD_eq_getD_get?, List.get?_eq_getElem?, List.getElem?_map,
    List.getElem?_range h]
  rfl

/-- One step of the new-axis count: counting one position further adds one
exactly when that position holds a new axis. -/
lemma newaxis_count_before_succ (sl : List Slice) (i : Nat) :
    newaxis_count_before sl (i + 1) =
      newaxis_count_before sl i +
        (if isNewAxisKind (sl.getD i (Slice.sInt 0)) then 1 else 0) := by
  by_cases hi : i < sl.length
  · rw [newaxis_count_before, newaxis_count_before, List.take_succ,
      List.filter_append, List.length_append]
    rw [List.getElem?_eq_getElem hi, List.getD_eq_getElem sl (Slice.sInt 0) hi]
    cases hx : isNewAxisKind (sl[i]) <;>
      simp [List.filter_cons, hx]
  · have hle : sl.length ≤ i := Nat.le_of_not_lt hi
    rw [newaxis_count_before, newaxis_count_before,
      List.take_of_length_le hle, List.take_of_length_le (Nat.le_succ_of_le hle),
      List.getD_eq_default sl (Slice.sInt 0) hle]
    simp [isNewAxisKind]

/-- The count trick of is_newaxis_slice coincides with directly inspecting
the slice at the given position (positions past the slice list hold no new
axis). -/
lemma is_newaxis_slice_eq (sl : List Slice) (i : Nat) :
    is_newaxis_slice sl i = isNewAxisKind (sl.getD i (Slice.sInt 0)) := by
  rw [is_newaxis_slice, newaxis_count_before_succ]
  cases hx : isNewAxisKind (sl.getD i (Slice.sInt 0)) <;> simp [hx]

/-- The guarded decrement of common_reset agrees with truncated
subtraction by one. -/
lemma guarded_pred (m : Nat) : (if m ≠ 0 then m - 1 else m) = m - 1 := by
  cases m <;> simp

/-- Bounded elementwise comparison of two lists through zip, phrased as a
bounded quantifier (used for the checked-access claim). -/
lemma zip_all_lt_iff (xs ys : List Nat) (h : xs.length ≤ ys.length) :
    (((xs.zip ys).all fun pr => decide (pr.1 < pr.2)) = true) ↔
      ∀ j, j < xs.length → xs.getD j 0 < ys.getD j 0 := by
  induction xs generalizing ys with
  | nil => simp
  | cons x xs ih =>
    cases ys with
    | nil => simp at h
    | cons y ys =>
      simp only [List.zip_cons_cons, List.all_cons, Bool.and_eq_true, decide_eq_true_eq]
      rw [ih ys (by simpa using h)]
      constructor
      · rintro ⟨hxy, hrest⟩ j hj
        cases j with
        | zero => simpa using hxy
        | succ k => simpa using hrest k (by simpa using hj)
      · intro hall
        refine ⟨by simpa using hall 0 (by simp), fun k hk => ?_⟩
        simpa using hall (k + 1) (by simpa using hk)

/-! Claim theorems. -/

/-- Claim C1. The claim states that Range and All slices map every view
coordinate through their value function on every access path, that
Integral slices fix their constant for every access, and that scenario A
holds. The unchecked call access path does satisfy scenario A (first two
conjuncts), but the iterator-pair element access path refutes the general
statement: on the view NewAxis, All, All over a 2 by 2 buffer, the
coordinate tuple (0, 0, 1) must reach underlying row 0, column
value(1) = 1, yet make_index advances its coordinate cursor cumulatively,
builds the underlying tuple [0, 0], and the access lands on underlying
(0, 0) - a different element. -/
theorem claim_C1 :
    view_shape eC1a slC1a = [2, 5] ∧
    view_access eC1a slC1a [0, 0] = uelem eC1a [1, 0] ∧
    make_index eC1b slC1b [0, 0, 1] = [0, 0] ∧
    view_element eC1b slC1b [0, 0, 1] = uelem eC1b [0, 0] ∧
    sliceValue (Slice.sAll 2) 1 = 1 ∧
    uelem eC1b [0, 1] ≠ uelem eC1b [0, 0] := by decide

/-- Claim C2. The rank of a view equals the underlying rank minus the
integral count plus the new-axis count, and the extent of view axis i is
the size of the slice at the integral-skip position when that position
lies within the slice list, and the underlying extent at that position
shifted down by the new-axis count before it otherwise. -/
theorem claim_C2 (e : UExpr) (sl : List Slice)
    (h : integral_count sl ≤ e.shape.length) :
    ((view_shape e sl).length : Int) =
      (e.shape.length : Int) - integral_count sl + newaxis_count sl ∧
    ∀ i, i < (view_shape e sl).length →
      (view_shape e sl).getD i 0 =
        if integral_skip sl i < sl.length
        then getSize (sl.getD (integral_skip sl i) (Slice.sInt 0))
        else e.shape.getD
          (integral_skip sl i - newaxis_count_before sl (integral_skip sl i)) 0 := by
  constructor
  · simp only [view_shape, List.length_map, List.length_range, view_dimension]
    push_cast [h]
    omega
  · intro i hi
    have hlen : (view_shape e sl).length = view_dimension e sl := by
      simp [view_shape]
    rw [hlen] at hi
    unfold view_shape
    rw [getD_map_range _ _ _ hi]

/-- Witness for claim C2 at scenario A: a 4 by 5 buffer under Range(1,3),
All has one integral-free slice list and rank 2. -/
theorem claim_C2_witness :
    integral_count slW2 ≤ eW2.shape.length ∧
    ((view_shape eW2 slW2).length : Int) =
      (eW2.shape.length : Int) - integral_count slW2 + newaxis_count slW2 :=
  ⟨by decide, (claim_C2 eW2 slW2 (by decide)).1⟩

/-- Claim C3. The claim states that a full forward traversal through the
stepper visits size() positions whose dereferenced elements agree with the
index mapper at the same view coordinates. It fails on the view NewAxis,
NewAxis, All over a length-2 buffer: the traversal agrees at the first
visited coordinate (0, 0, 0), but after the one forward step along the
innermost axis that reaches coordinate (0, 0, 1) the stepper correctly
dereferences underlying element 1, while the index mapper maps the same
coordinate tuple through the slice at the non-iterated new-axis-skip
position, a NewAxis slot, and returns underlying element 0. -/
theorem claim_C3 :
    view_shape eC3x slC3x = [1, 1, 2] ∧
    vderef eC3x (vbegin eC3x slC3x) = view_access eC3x slC3x [0, 0, 0] ∧
    vderef eC3x (vstep1 eC3x slC3x 0 (vbegin eC3x slC3x) 2) = uelem eC3x [1] ∧
    view_access eC3x slC3x [0, 0, 1] = uelem eC3x [0] ∧
    uelem eC3x [1] ≠ uelem eC3x [0] := by decide

/-- Claim C4. Stepping the view stepper along axis dim by n (n defaulting
to 1) is a no-op below the dimension offset and on a new-axis slot at the
integral-skip position, and otherwise moves the underlying cursor on the
axis obtained by subtracting the new-axis count before the integral-skip
position, by the slice step size (1 past the slice list) times n times
that underlying stride - forward for step, backward for step_back. -/
theorem claim_C4 (e : UExpr) (sl : List Slice) (moff : Nat) (pos : Int)
    (dim n : Nat) :
    (vstepN e sl moff pos dim n =
      if dim < moff then pos
      else if isNewAxisKind (sl.getD (integral_skip sl dim) (Slice.sInt 0)) then pos
      else pos +
        (((if integral_skip sl dim < sl.length
            then stepSize (sl.getD (integral_skip sl dim) (Slice.sInt 0))
            else 1) * n : Nat) : Int) *
          (e.strides.getD
            (integral_skip sl dim - newaxis_count_before sl (integral_skip sl dim))
            0 : Int)) ∧
    (vstep_backN e sl moff pos dim n =
      if dim < moff then pos
      else if isNewAxisKind (sl.getD (integral_skip sl dim) (Slice.sInt 0)) then pos
      else pos -
        (((if integral_skip sl dim < sl.length
            then stepSize (sl.getD (integral_skip sl dim) (Slice.sInt 0))
            else 1) * n : Nat) : Int) *
          (e.strides.getD
            (integral_skip sl dim - newaxis_count_before sl (integral_skip sl dim))
            0 : Int)) ∧
    vstep1 e sl moff pos dim = vstepN e sl moff pos dim 1 ∧
    vstep_back1 e sl moff pos dim = vstep_backN e sl moff pos dim 1 := by
  refine ⟨?_, ?_, ?_, ?_⟩
  · simp only [vstepN, common_stepN, ustep, is_newaxis_slice_eq]
    rcases Nat.lt_or_ge dim moff with h1 | h1
    · rw [if_neg (Nat.not_le_of_lt h1), if_pos h1]
    · rw [if_pos h1, if_neg (Nat.not_lt_of_le h1)]
  · simp only [vstep_backN, common_stepN, ustep_back, is_newaxis_slice_eq]
    rcases Nat.lt_or_ge dim moff with h1 | h1
    · rw [if_neg (Nat.not_le_of_lt h1), if_pos h1]
    · rw [if_pos h1, if_neg (Nat.not_lt_of_le h1)]
  · simp only [vstep1, common_step1, vstepN, common_stepN, Nat.mul_one]
  · simp only [vstep_back1, common_step1, vstep_backN, common_stepN, Nat.mul_one]

/-- Claim C5. With the same integral-skip and new-axis translation as
step, reset moves the underlying cursor backward and reset_back forward,
both by the slice step size (1 past the slice list) times the axis extent
minus one (slice size within the slice list, derived view extent at dim
past it) times the underlying stride; consequently the two operations
cancel each other exactly. -/
theorem claim_C5 (e : UExpr) (sl : List Slice) (pos : Int) (dim : Nat) :
    (vreset e sl pos dim =
      if isNewAxisKind (sl.getD (integral_skip sl dim) (Slice.sInt 0)) then pos
      else pos -
        (((if integral_skip sl dim < sl.length
            then stepSize (sl.getD (integral_skip sl dim) (Slice.sInt 0))
            else 1) *
          ((if integral_skip sl dim < sl.length
            then getSize (sl.getD (integral_skip sl dim) (Slice.sInt 0))
            else (view_shape e sl).getD dim 0) - 1) : Nat) : Int) *
          (e.strides.getD
            (integral_skip sl dim - newaxis_count_before sl (integral_skip sl dim))
            0 : Int)) ∧
    (vreset_back e sl pos dim =
      if isNewAxisKind (sl.getD (integral_skip sl dim) (Slice.sInt 0)) then pos
      else pos +
        (((if integral_skip sl dim < sl.length
            then stepSize (sl.getD (integral_skip sl dim) (Slice.sInt 0))
            else 1) *
          ((if integral_skip sl dim < sl.length
            then getSize (sl.getD (integral_skip sl dim) (Slice.sInt 0))
            else (view_shape e sl).getD dim 0) - 1) : Nat) : Int) *
          (e.strides.getD
            (integral_skip sl dim - newaxis_count_before sl (integral_skip sl dim))
            0 : Int)) ∧
    vreset_back e sl (vreset e sl pos dim) dim = pos ∧
    vreset e sl (vreset_back e sl pos dim) dim = pos := by
  have hr : ∀ p : Int, vreset e sl p dim =
      if isNewAxisKind (sl.getD (integral_skip sl dim) (Slice.sInt 0)) then p
      else p -
        (((if integral_skip sl dim < sl.length
            then stepSize (sl.getD (integral_skip sl dim) (Slice.sInt 0))
            else 1) *
          ((if integral_skip sl dim < sl.length
            then getSize (sl.getD (integral_skip sl dim) (Slice.sInt 0))
            else (view_shape e sl).getD dim 0) - 1) : Nat) : Int) *
          (e.strides.getD
            (integral_skip sl dim - newaxis_count_before sl (integral_skip sl dim))
            0 : Int) := by
    intro p
    simp only [vreset, common_reset, ustep_back, is_newaxis_slice_eq, guarded_pred]
  have hb : ∀ p : Int, vreset_back e sl p dim =
      if isNewAxisKind (sl.getD (integral_skip sl dim) (Slice.sInt 0)) then p
      else p +
        (((if integral_skip sl dim < sl.length
            then stepSize (sl.getD (integral_skip sl dim) (Slice.sInt 0))
            else 1) *
          ((if integral_skip sl dim < sl.length
            then getSize (sl.getD (integral_skip sl dim) (Slice.sInt 0))
            else (view_shape e sl).getD dim 0) - 1) : Nat) : Int) *
          (e.strides.getD
            (integral_skip sl dim - newaxis_count_before sl (integral_skip sl dim))
            0 : Int) := by
    intro p
    simp only [vreset_back, common_reset, ustep, is_newaxis_slice_eq, guarded_pred]
  refine ⟨hr pos, hb pos, ?_, ?_⟩
  · rw [hr pos, hb]
    by_cases hax : isNewAxisKind (sl.getD (integral_skip sl dim) (Slice.sInt 0)) = true
    · rw [if_pos hax, if_pos hax]
    · rw [if_neg hax, if_neg hax]
      ring
  · rw [hb pos, hr]
    by_cases hax : isNewAxisKind (sl.getD (integral_skip sl dim) (Slice.sInt 0)) = true
    · rw [if_pos hax, if_pos hax]
    · rw [if_neg hax, if_neg hax]
      ring

/-- Claim C6. Once computed, the stride of view axis i is the slice step
size at the integral-skip position (1 for a trailing axis past the slice
list) times the underlying stride of the mapped underlying axis, except
that every view axis of derived extent 1 has stride exactly 0. -/
theorem claim_C6 (e : UExpr) (sl : List Slice) (i : Nat)
    (h : i < (view_strides e sl).length) :
    (view_strides e sl).getD i 0 =
      if (view_shape e sl).getD i 0 = 1 then 0
      else
        (if integral_skip sl i < sl.length
         then stepSize (sl.getD (integral_skip sl i) (Slice.sInt 0))
         else 1) *
          e.strides.getD
            (integral_skip sl i - newaxis_count_before sl (integral_skip sl i)) 0 := by
  have hlen : (view_strides e sl).length = view_dimension e sl := by
    simp [view_strides]
  rw [hlen] at h
  unfold view_strides
  rw [getD_map_range _ _ _ h]
  by_cases hin : integral_skip sl i < sl.length
  · simp only [if_pos hin]
  · simp only [if_neg hin, Nat.one_mul]

/-- Witness for claim C6 on the stepped range view Range(1,5,2), All over
a 4 by 5 buffer: axis 0 is in the slice list, its extent is 2, so the
branch with the step multiplier applies. -/
theorem claim_C6_witness :
    (view_strides eW6 slW6).getD 0 0 =
      if (view_shape eW6 slW6).getD 0 0 = 1 then 0
      else
        (if integral_skip slW6 0 < slW6.length
         then stepSize (slW6.getD (integral_skip slW6 0) (Slice.sInt 0))
         else 1) *
          eW6.strides.getD
            (integral_skip slW6 0 - newaxis_count_before slW6 (integral_skip slW6 0)) 0 :=
  claim_C6 eW6 slW6 0 (by decide)

/-- Claim C7. The claim states that data_offset equals the underlying base
offset plus the sum over slice positions of the slice value at 0 times the
underlying stride of the underlying axis the slice addresses. The source
instead reads the underlying stride at the slice position itself, with no
new-axis adjustment: on the view NewAxis, Range(1,3), All over a 4 by 5
row-major buffer, the range slice addresses underlying axis 0 of stride 5
and its value(0) is 1, so the claimed offset is 5 - the storage position
of the first view element, as the third conjunct shows - while the source
computes 1 times the stride at slice position 1, namely 1. -/
theorem claim_C7 :
    view_data_offset eC7x slC7x = 1 ∧
    view_access eC7x slC7x [0, 0, 0] = eC7x.data 5 ∧
    view_access eC7x slC7x [0, 0, 0] ≠ eC7x.data (view_data_offset eC7x slC7x) := by
  decide

/-- Claim C8, amended. The compile-time classification of a view is always
dynamic and never contiguous; the runtime layout() returns the underlying
layout when the derived view strides match it and dynamic otherwise. -/
theorem claim_C8 :
    static_layout = layout_type.dynamic ∧ contiguous_layout = false ∧
    ∀ (e : UExpr) (sl : List Slice),
      view_layout e sl =
        if do_strides_match (view_shape e sl) (view_strides e sl) e.elayout
        then e.elayout else layout_type.dynamic :=
  ⟨rfl, rfl, fun _ _ => rfl⟩

/-- Counterexample to claim C8 as stated: the full view All, All over a
4 by 5 row-major buffer has view strides 5, 1 - exactly the row-major
strides of its shape - so its runtime layout() is row_major, not the
always-dynamic classification the claim asserts. -/
theorem claim_C8_cex :
    view_layout eC8x slC8x = layout_type.row_major ∧
    layout_type.row_major ≠ layout_type.dynamic := by decide

/-- Claim C9. Checked access signals a bounds violation, before any
underlying access, exactly when the number of supplied coordinates exceeds
the rank or some supplied coordinate reaches or exceeds the derived extent
of its axis; otherwise it returns the result of the unchecked access. -/
theorem claim_C9 (e : UExpr) (sl : List Slice) (args : List Nat) :
    view_at e sl args =
      if args.length ≤ (view_shape e sl).length ∧
          ∀ j, j < args.length → args.getD j 0 < (view_shape e sl).getD j 0
      then Except.ok (view_access e sl args)
      else Except.error () := by
  have hcond : check_access_ok (view_shape e sl) args = true ↔
      (args.length ≤ (view_shape e sl).length ∧
        ∀ j, j < args.length → args.getD j 0 < (view_shape e sl).getD j 0) := by
    unfold check_access_ok
    rw [Bool.and_eq_true, decide_eq_true_iff]
    constructor
    · rintro ⟨ha, hb⟩
      exact ⟨ha, (zip_all_lt_iff _ _ ha).mp hb⟩
    · rintro ⟨ha, hb⟩
      exact ⟨ha, (zip_all_lt_iff _ _ ha).mpr hb⟩
  unfold view_at
  by_cases hc : args.length ≤ (view_shape e sl).length ∧
      ∀ j, j < args.length → args.getD j 0 < (view_shape e sl).getD j 0
  · rw [if_pos (hcond.mpr hc), if_pos hc]
  · rw [if_neg (fun hb => hc (hcond.mp hb)), if_neg hc]

/-- Claim C10. When the translated slice position of axis dim addresses an
axis of extent 0 - slice size 0 within the slice list, derived view extent
0 past it - the guarded decrement of common_reset keeps the magnitude at
exactly 0, so neither reset nor reset_back moves the underlying cursor. -/
theorem claim_C10 (e : UExpr) (sl : List Slice) (pos : Int) (dim : Nat)
    (h : (if integral_skip sl dim < sl.length
          then getSize (sl.getD (integral_skip sl dim) (Slice.sInt 0))
          else (view_shape e sl).getD dim 0) = 0) :
    vreset e sl pos dim = pos ∧ vreset_back e sl pos dim = pos := by
  constructor
  · simp only [vreset, common_reset, ustep_back, h]
    split
    · rfl
    · simp
  · simp only [vreset_back, common_reset, ustep, h]
    split
    · rfl
    · simp

/-- Witness for claim C10: an empty range Range(1,1) over a length-6
buffer gives its axis extent 0, and resetting in either direction from
position 7 stays at 7. -/
theorem claim_C10_witness :
    vreset eW10 slW10 7 0 = 7 ∧ vreset_back eW10 slW10 7 0 = 7 :=
  claim_C10 eW10 slW10 7 0 (by decide)

end XView
